import Mathlib

/-!
Verification of the egui-wgpu-winit example shell: a shallow embedding of
the repaint scheduler, the window-event dispatch, the UI-pass close logic,
and the paint pipeline of `src/app.rs` and `src/egui_renderer.rs`, with
theorems settling the specification's testable properties.

External collaborators (the winit event loop, the egui context, the wgpu
device) are modelled as oracle inputs: the `EventResponse` returned by
`egui_winit::State::on_window_event` is a parameter, the result of
`surface.get_current_texture()` is an `Except` parameter, and side effects
on the OS window / GPU are recorded as explicit action traces.
-/

namespace EguiWgpu

/-- Monotonic time (`std::time::Instant`), modelled as a natural number. -/
abbrev Instant := Nat

/-- `event.rs`: the result classification every event handler returns. -/
inductive EventResult where
  | Wait
  | RepaintNow
  | RepaintNext
  | RepaintAt (t : Instant)
  | Exit
deriving DecidableEq

/-- `event.rs`: the custom user event injected by the repaint callback. -/
inductive UserEvent where
  | requestRepaint (when_ : Instant) (cumulativePassNr : Nat)
deriving DecidableEq

/-- `wgpu::SurfaceConfiguration`, restricted to the fields the shell mutates. -/
structure SurfaceConfiguration where
  width : Nat
  height : Nat
deriving DecidableEq

/-- `egui_winit::EventResponse`: what the external input translator reports
back for one window event. -/
structure EventResponse where
  consumed : Bool
  repaint : Bool
deriving DecidableEq

/-- Per-viewport commands the UI pass may emit (`egui::ViewportCommand`);
only `CancelClose` is inspected by the shell, the rest are opaque. -/
inductive ViewportCommand where
  | cancelClose
  | other (n : Nat)
deriving DecidableEq

/-- `egui::ViewportEvent` entries pushed into `info.events`. -/
inductive ViewportEvent where
  | close
deriving DecidableEq

/-- `egui::epaint::textures::TexturesDelta`: ids of textures newly set and
ids of textures marked for deletion. -/
structure TexturesDelta where
  set : List Nat
  free : List Nat
deriving DecidableEq

/-- The slice of `egui::FullOutput` the shell consumes: the root viewport's
commands and the texture deltas. -/
structure FullOutput where
  rootCommands : List ViewportCommand
  texturesDelta : TexturesDelta
deriving DecidableEq

def FullOutput.empty : FullOutput :=
  { rootCommands := [], texturesDelta := { set := [], free := [] } }

/-- `egui::FullOutput::append`: merge a later pass's output into an
accumulator (commands and texture deltas are concatenated). -/
def FullOutput.append (a b : FullOutput) : FullOutput :=
  { rootCommands := a.rootCommands ++ b.rootCommands,
    texturesDelta :=
      { set := a.texturesDelta.set ++ b.texturesDelta.set,
        free := a.texturesDelta.free ++ b.texturesDelta.free } }

/-- The mutable state of `EguiRenderer` (egui_renderer.rs) that the claims
touch: the terminal close flag, the first-frame flag, the queued viewport
events and the pending (multi-pass) output accumulator. -/
structure EguiRendererState where
  close : Bool
  isFirstFrame : Bool
  infoEvents : List ViewportEvent
  pendingFullOutput : FullOutput
deriving DecidableEq

/-- `EguiRenderer::new`: `close: false, is_first_frame: true`. -/
def EguiRendererState.init : EguiRendererState :=
  { close := false, isFirstFrame := true, infoEvents := [],
    pendingFullOutput := FullOutput.empty }

/-- `Renderer` (app.rs): surface configuration plus the egui renderer state. -/
structure RendererState where
  surfaceConfig : SurfaceConfiguration
  egui : EguiRendererState
deriving DecidableEq

/-- The window events `Renderer::on_window_event` branches on. -/
inductive WindowEvent where
  | resized (width height : Nat)
  | closeRequested
  | redrawRequested
  | other (n : Nat)
deriving DecidableEq

/-- Side effects of `Renderer::on_window_event` on external collaborators. -/
inductive SurfaceAction where
  | configure (cfg : SurfaceConfiguration)
  | requestRepaintOfRoot
deriving DecidableEq

/-- The common tail of `Renderer::on_window_event` (app.rs lines 184-194):
Exit if closing, else RepaintNow/RepaintNext per `repaint_asap` when the
translator asks for a repaint, else Wait. -/
def Renderer.windowEventResult (close repaintAsap : Bool)
    (response : EventResponse) : EventResult :=
  if close then EventResult.Exit
  else if response.repaint then
    if repaintAsap then EventResult.RepaintNow else EventResult.RepaintNext
  else EventResult.Wait

/-- `Renderer::on_window_event` (app.rs lines 140-195). `response` is the
`EventResponse` returned by the external `egui_winit` translator for this
event. Returns the new state, the trace of external side effects, and the
event result. A `Resized` event with both dimensions nonzero (the
`NonZeroU32::new` guard) updates the surface configuration and reconfigures
the surface with `repaint_asap = true`; a `CloseRequested` while already
closing returns Exit early; otherwise a close intent is queued and a
repaint of the root viewport requested. -/
def Renderer.onWindowEvent (st : RendererState) (event : WindowEvent)
    (response : EventResponse) :
    RendererState × List SurfaceAction × EventResult :=
  match event with
  | WindowEvent.resized w h =>
      if 0 < w ∧ 0 < h then
        let cfg : SurfaceConfiguration := { width := w, height := h }
        let st1 := { st with surfaceConfig := cfg }
        (st1, [SurfaceAction.configure cfg],
          Renderer.windowEventResult st1.egui.close true response)
      else
        (st, [], Renderer.windowEventResult st.egui.close false response)
  | WindowEvent.closeRequested =>
      if st.egui.close then
        (st, [], EventResult.Exit)
      else
        let st1 := { st with egui :=
          { st.egui with infoEvents := st.egui.infoEvents ++ [ViewportEvent.close] } }
        (st1, [SurfaceAction.requestRepaintOfRoot],
          Renderer.windowEventResult st1.egui.close false response)
  | _ => (st, [], Renderer.windowEventResult st.egui.close false response)

/-- Modulus of Rust's `u64` arithmetic. -/
def U64MOD : Nat := 2 ^ 64

/-- `Renderer::on_user_event` (app.rs lines 205-225): honor a repaint
request only if the context's current cumulative pass counter equals the
request's snapshot or is exactly one ahead (`+ 1` in wrapping `u64`
arithmetic). `currentPassNr` is the value of
`egui_ctx.cumulative_pass_nr_for(ViewportId::ROOT)`. -/
def Renderer.onUserEvent (currentPassNr : Nat) (event : UserEvent) : EventResult :=
  match event with
  | UserEvent.requestRepaint when_ cumulativePassNr =>
      if currentPassNr = cumulativePassNr ∨
          currentPassNr = (cumulativePassNr + 1) % U64MOD then
        EventResult.RepaintAt when_
      else
        EventResult.Wait

/-- The error produced when `surface.get_current_texture()` fails. -/
inductive AcquireError where
  | surfaceError (code : Nat)
deriving DecidableEq

/-- `winit::event_loop::ControlFlow` values the shell sets. -/
inductive ControlFlow where
  | wait
  | waitUntil (t : Instant)
deriving DecidableEq

/-- Observable actions of the application shell on the event loop / window. -/
inductive ShellAction where
  | setControlFlow (cf : ControlFlow)
  | requestRedraw
  | exitLoop
  | runFrameInline
deriving DecidableEq

/-- The scheduler-relevant state of `App` (app.rs): the single optional
next-repaint time, whether the window exists yet, and the stored terminal
error (`return_result`; `none` models `Ok(())`). -/
structure AppSchedState where
  windowsNextRepaintTime : Option Instant
  hasWindow : Bool
  returnResultIsErr : Option AcquireError
deriving DecidableEq

/-- `App::check_redraw_requests` (app.rs lines 375-387): if a repaint time
is scheduled and already due, clear it and request a redraw of the window
(when one exists); if not yet due, wake the loop exactly at the deadline. -/
def App.checkRedrawRequests (st : AppSchedState) (now : Instant) :
    AppSchedState × List ShellAction :=
  match st.windowsNextRepaintTime with
  | some nextRepaintTime =>
      if nextRepaintTime ≤ now then
        ({ st with windowsNextRepaintTime := none },
          if st.hasWindow then [ShellAction.requestRedraw] else [])
      else
        (st, [ShellAction.setControlFlow (ControlFlow.waitUntil nextRepaintTime)])
  | none => (st, [])

/-- The `match event_result` dispatch inside `App::handle_event_result`
(app.rs lines 328-361). `now` is the `Instant::now()` read in the
RepaintNow/RepaintNext arms; `inlineFrameResult` is the outcome of the
inline `run_ui_and_paint` call on the Windows RepaintNow path. Returns the
updated state, the actions emitted, the combined result, and the `exit`
flag (set only by the Exit arm). -/
def App.dispatchEventResult (isWindows : Bool)
    (inlineFrameResult : Except AcquireError EventResult)
    (st : AppSchedState) (now : Instant) (eventResult : EventResult) :
    AppSchedState × List ShellAction × Except AcquireError EventResult × Bool :=
  match eventResult with
  | EventResult.Wait =>
      (st, [ShellAction.setControlFlow ControlFlow.wait],
        Except.ok eventResult, false)
  | EventResult.RepaintNow =>
      if isWindows then
        if st.hasWindow then
          (st, [ShellAction.runFrameInline], inlineFrameResult, false)
        else
          (st, [ShellAction.setControlFlow ControlFlow.wait],
            Except.ok eventResult, false)
      else
        ({ st with windowsNextRepaintTime := some now }, [],
          Except.ok eventResult, false)
  | EventResult.RepaintNext =>
      ({ st with windowsNextRepaintTime := some now }, [],
        Except.ok eventResult, false)
  | EventResult.RepaintAt repaintTime =>
      let merged := st.windowsNextRepaintTime.elim repaintTime
        (fun last => min last repaintTime)
      ({ st with windowsNextRepaintTime := some merged }, [],
        Except.ok eventResult, false)
  | EventResult.Exit =>
      (st, [], Except.ok eventResult, true)

/-- `App::handle_event_result` (app.rs lines 321-373): dispatch the event
result, store an error outcome as `return_result` and force exit, call
`event_loop.exit()` when exiting, then run `check_redraw_requests`.
`tickNow` is the separate `Instant::now()` read inside
`check_redraw_requests`. -/
def App.handleEventResult (isWindows : Bool)
    (inlineFrameResult : Except AcquireError EventResult)
    (st : AppSchedState) (now tickNow : Instant)
    (eventResult : Except AcquireError EventResult) :
    AppSchedState × List ShellAction :=
  let dispatched :=
    match eventResult with
    | Except.error e => (st, [], Except.error e, false)
    | Except.ok er => App.dispatchEventResult isWindows inlineFrameResult st now er
  let st1 := dispatched.1
  let acts1 := dispatched.2.1
  let afterErr :=
    match dispatched.2.2.1 with
    | Except.error e => ({ st1 with returnResultIsErr := some e }, true)
    | Except.ok _ => (st1, dispatched.2.2.2)
  let st2 := afterErr.1
  let exitActs := if afterErr.2 then [ShellAction.exitLoop] else []
  let checked := App.checkRedrawRequests st2 tickNow
  (checked.1, acts1 ++ exitActs ++ checked.2)

/-- `EguiRenderer::update` (egui_renderer.rs lines 67-87): run one UI pass.
`closeRequested` is `raw_input.viewport().close_requested()`; `passOutput`
is the `FullOutput` produced by `egui_ctx.run` for this pass. If a close
was requested and the root viewport's commands do not contain
`CancelClose`, the terminal close flag is set. The pass output is appended
to the pending accumulator, which is then drained (`mem::take`) and
returned. -/
def EguiRenderer.update (st : EguiRendererState) (closeRequested : Bool)
    (passOutput : FullOutput) : EguiRendererState × FullOutput :=
  let canceled := passOutput.rootCommands.contains ViewportCommand.cancelClose
  let close1 :=
    if closeRequested then (if canceled then st.close else true) else st.close
  let drained := st.pendingFullOutput.append passOutput
  ({ st with close := close1, pendingFullOutput := FullOutput.empty }, drained)

/-- `wgpu::LoadOp` for the render pass color attachment. -/
inductive LoadOp where
  | load
  | clear
deriving DecidableEq

/-- The GPU-renderer operations `paint_and_update_textures` issues, in
order. -/
inductive GpuOp where
  | updateTexture (id : Nat)
  | updateBuffers
  | beginRenderPass (op : LoadOp)
  | render
  | freeTexture (id : Nat)
deriving DecidableEq

def GpuOp.isBeginRenderPass : GpuOp → Bool
  | GpuOp.beginRenderPass _ => true
  | _ => false

def GpuOp.isUpdateTexture : GpuOp → Bool
  | GpuOp.updateTexture _ => true
  | _ => false

def GpuOp.isFreeTexture : GpuOp → Bool
  | GpuOp.freeTexture _ => true
  | _ => false

/-- `EguiRenderer::paint_and_update_textures` (egui_renderer.rs lines
194-242) as the trace of operations issued to the `egui_wgpu::Renderer`:
update every texture in `textures_delta.set`, update the vertex/index
buffers, begin one render pass whose color attachment loads (preserves)
existing content, render all primitives, then free every texture in
`textures_delta.free`. -/
def paintAndUpdateTextures (texturesDelta : TexturesDelta) : List GpuOp :=
  texturesDelta.set.map GpuOp.updateTexture
    ++ [GpuOp.updateBuffers]
    ++ [GpuOp.beginRenderPass LoadOp.load, GpuOp.render]
    ++ texturesDelta.free.map GpuOp.freeTexture

/-- Window-level side effects of one frame of `run_ui_and_paint`. -/
inductive FrameAction where
  | setVisible (visible : Bool)
  | sleepMinimized
deriving DecidableEq

/-- The external inputs to one invocation of
`EguiRenderer::run_ui_and_paint`: whether the raw input signals a close
request, the UI pass's output, and whether the window reports minimized. -/
structure FrameInput where
  closeRequested : Bool
  passOutput : FullOutput
  minimized : Bool
deriving DecidableEq

/-- `EguiRenderer::run_ui_and_paint` (egui_renderer.rs lines 90-191): run
`update`, clear `info.events`, paint the drained output's texture deltas
and primitives, make the window visible on the first frame only
(`mem::take(&mut self.is_first_frame)`), sleep briefly when minimized, and
return Exit when the close flag is set, Wait otherwise. -/
def EguiRenderer.runUiAndPaint (st : EguiRendererState) (input : FrameInput) :
    EguiRendererState × List FrameAction × List GpuOp × EventResult :=
  let updated := EguiRenderer.update st input.closeRequested input.passOutput
  let st1 := updated.1
  let fullOutput := updated.2
  let st2 := { st1 with infoEvents := [] }
  let gpuOps := paintAndUpdateTextures fullOutput.texturesDelta
  let visActs :=
    if st2.isFirstFrame then [FrameAction.setVisible true] else []
  let st3 := { st2 with isFirstFrame := false }
  let sleepActs := if input.minimized then [FrameAction.sleepMinimized] else []
  let result := if st3.close then EventResult.Exit else EventResult.Wait
  (st3, visActs ++ sleepActs, gpuOps, result)

/-- `Renderer::run_ui_and_paint` (app.rs lines 100-138): acquire the
current surface texture (`acquire` is the oracle outcome of
`surface.get_current_texture()`); on failure the error propagates
immediately via `?`; on success the egui frame pipeline runs and its
result is returned. -/
def Renderer.runUiAndPaint (st : RendererState)
    (acquire : Except AcquireError Unit) (input : FrameInput) :
    Except AcquireError (RendererState × EventResult) :=
  match acquire with
  | Except.error e => Except.error e
  | Except.ok _ =>
      let frame := EguiRenderer.runUiAndPaint st.egui input
      Except.ok ({ st with egui := frame.1 }, frame.2.2.2)

/-- For a sequence of frame invocations starting in `st`, the list telling
for each frame whether `window.set_visible(true)` was called during it. -/
def EguiRenderer.setVisibleTrace (st : EguiRendererState) :
    List FrameInput → List Bool
  | [] => []
  | input :: rest =>
      let frame := EguiRenderer.runUiAndPaint st input
      frame.2.1.contains (FrameAction.setVisible true)
        :: EguiRenderer.setVisibleTrace frame.1 rest

/-! ## Helper lemmas -/

theorem checkRedrawRequests_returnResult (st : AppSchedState) (now : Instant) :
    (App.checkRedrawRequests st now).1.returnResultIsErr = st.returnResultIsErr := by
  unfold App.checkRedrawRequests
  cases st.windowsNextRepaintTime <;> simp
  split <;> simp

theorem handleEventResult_repaintAt_time (isWindows : Bool)
    (inl : Except AcquireError EventResult) (st : AppSchedState)
    (now tickNow t : Instant)
    (htick : tickNow < st.windowsNextRepaintTime.elim t fun last => min last t) :
    (App.handleEventResult isWindows inl st now tickNow
        (Except.ok (EventResult.RepaintAt t))).1.windowsNextRepaintTime
      = some (st.windowsNextRepaintTime.elim t fun last => min last t) := by
  have hmerged :
      ¬ ((st.windowsNextRepaintTime.elim t fun last => min last t) ≤ tickNow) :=
    Nat.not_le.mpr htick
  simp [App.handleEventResult, App.dispatchEventResult, App.checkRedrawRequests,
    hmerged]

theorem runUiAndPaint_isFirstFrame (st : EguiRendererState) (input : FrameInput) :
    (EguiRenderer.runUiAndPaint st input).1.isFirstFrame = false := by
  simp [EguiRenderer.runUiAndPaint, EguiRenderer.update]

theorem setVisibleTrace_not_first (inputs : List FrameInput)
    (st : EguiRendererState) (h : st.isFirstFrame = false) :
    EguiRenderer.setVisibleTrace st inputs
      = List.replicate inputs.length false := by
  induction inputs generalizing st with
  | nil => simp [EguiRenderer.setVisibleTrace]
  | cons input rest ih =>
      rw [EguiRenderer.setVisibleTrace, List.length_cons, List.replicate_succ]
      refine congrArg₂ List.cons ?_ (ih _ (runUiAndPaint_isFirstFrame st input))
      simp only [EguiRenderer.runUiAndPaint, EguiRenderer.update]
      simp only [h]
      cases input.minimized <;> decide

theorem paint_get_shape (d : TexturesDelta) (i : Nat) (x : GpuOp)
    (hx : (paintAndUpdateTextures d)[i]? = some x) :
    (i < d.set.length ∧ ∃ a, x = GpuOp.updateTexture a)
    ∨ (i = d.set.length ∧ x = GpuOp.updateBuffers)
    ∨ (i = d.set.length + 1 ∧ x = GpuOp.beginRenderPass LoadOp.load)
    ∨ (i = d.set.length + 2 ∧ x = GpuOp.render)
    ∨ (d.set.length + 3 ≤ i ∧ ∃ a, x = GpuOp.freeTexture a) := by
  have hsplit : paintAndUpdateTextures d
      = d.set.map GpuOp.updateTexture
        ++ (GpuOp.updateBuffers :: GpuOp.beginRenderPass LoadOp.load
            :: GpuOp.render :: d.free.map GpuOp.freeTexture) := by
    simp [paintAndUpdateTextures]
  rw [hsplit] at hx
  rcases Nat.lt_or_ge i d.set.length with hlt | hge
  · left
    refine ⟨hlt, ?_⟩
    rw [List.getElem?_append_left (by simpa using hlt)] at hx
    simp only [List.getElem?_map] at hx
    obtain ⟨a, _, hxa⟩ := Option.map_eq_some'.mp hx
    exact ⟨a, hxa.symm⟩
  · rw [List.getElem?_append_right (by simpa using hge)] at hx
    simp only [List.length_map] at hx
    rcases hj : i - d.set.length with _ | _ | _ | j
    all_goals rw [hj] at hx
    · right; left
      refine ⟨by omega, ?_⟩
      simp only [List.getElem?_cons_zero, Option.some.injEq] at hx
      exact hx.symm
    · right; right; left
      refine ⟨by omega, ?_⟩
      simp only [List.getElem?_cons_succ, List.getElem?_cons_zero,
        Option.some.injEq] at hx
      exact hx.symm
    · right; right; right; left
      refine ⟨by omega, ?_⟩
      simp only [List.getElem?_cons_succ, List.getElem?_cons_zero,
        Option.some.injEq] at hx
      exact hx.symm
    · right; right; right; right
      refine ⟨by omega, ?_⟩
      simp only [List.getElem?_cons_succ, List.getElem?_map] at hx
      obtain ⟨a, _, hxa⟩ := Option.map_eq_some'.mp hx
      exact ⟨a, hxa.symm⟩

/-! ## Claim theorems -/

/-- C10: every invocation of the egui frame pipeline returns Exit exactly
when the close flag is true at the end of the frame, and otherwise Wait;
it never returns RepaintNow, RepaintNext, or any RepaintAt. -/
theorem C10_frame_result_exit_or_wait (st : EguiRendererState)
    (input : FrameInput) :
    ((EguiRenderer.runUiAndPaint st input).2.2.2 = EventResult.Exit
        ↔ (EguiRenderer.runUiAndPaint st input).1.close = true)
    ∧ ((EguiRenderer.runUiAndPaint st input).2.2.2 = EventResult.Exit
        ∨ (EguiRenderer.runUiAndPaint st input).2.2.2 = EventResult.Wait)
    ∧ (EguiRenderer.runUiAndPaint st input).2.2.2 ≠ EventResult.RepaintNow
    ∧ (EguiRenderer.runUiAndPaint st input).2.2.2 ≠ EventResult.RepaintNext
    ∧ ∀ t, (EguiRenderer.runUiAndPaint st input).2.2.2 ≠ EventResult.RepaintAt t := by
  have key : (EguiRenderer.runUiAndPaint st input).2.2.2
      = if (EguiRenderer.runUiAndPaint st input).1.close then EventResult.Exit
        else EventResult.Wait := rfl
  rw [key]
  cases hc : (EguiRenderer.runUiAndPaint st input).1.close <;> simp [hc]

/-- C10 witness: the very first frame of a fresh renderer (no close
request) yields Wait, not Exit and not any repaint result. -/
theorem C10_frame_result_exit_or_wait_witness :
    ((EguiRenderer.runUiAndPaint EguiRendererState.init
        ⟨false, FullOutput.empty, false⟩).2.2.2 = EventResult.Exit
      ↔ (EguiRenderer.runUiAndPaint EguiRendererState.init
          ⟨false, FullOutput.empty, false⟩).1.close = true)
    ∧ (EguiRenderer.runUiAndPaint EguiRendererState.init
        ⟨false, FullOutput.empty, false⟩).2.2.2 ≠ EventResult.RepaintNow
    ∧ (EguiRenderer.runUiAndPaint EguiRendererState.init
        ⟨false, FullOutput.empty, false⟩).2.2.2 ≠ EventResult.RepaintAt 7 :=
  ⟨(C10_frame_result_exit_or_wait EguiRendererState.init
      ⟨false, FullOutput.empty, false⟩).1,
    (C10_frame_result_exit_or_wait EguiRendererState.init
      ⟨false, FullOutput.empty, false⟩).2.2.1,
    (C10_frame_result_exit_or_wait EguiRendererState.init
      ⟨false, FullOutput.empty, false⟩).2.2.2.2 7⟩

/-- C9: a failed surface-texture acquisition propagates out of the frame
pipeline unchanged as an error, and handling that error result stores it
as the shell's return result and requests event-loop exit. -/
theorem C9_acquire_failure_exits (st : RendererState) (e : AcquireError)
    (input : FrameInput) (isWindows : Bool)
    (inl : Except AcquireError EventResult) (app : AppSchedState)
    (now tickNow : Instant) :
    Renderer.runUiAndPaint st (Except.error e) input = Except.error e
    ∧ (App.handleEventResult isWindows inl app now tickNow
          (Except.error e)).1.returnResultIsErr = some e
    ∧ ShellAction.exitLoop
        ∈ (App.handleEventResult isWindows inl app now tickNow
            (Except.error e)).2 := by
  refine ⟨rfl, ?_, ?_⟩
  · simp only [App.handleEventResult]
    rw [checkRedrawRequests_returnResult]
  · simp [App.handleEventResult]

/-- C4: an asynchronous repaint request with pass-counter snapshot `n` is
honored (RepaintAt of the requested time) if and only if the context's
current cumulative pass counter `c` equals `n` or `n + 1`; any request
more than one behind yields Wait, and dispatching a Wait result never sets
the scheduled repaint time. -/
theorem C4_stale_repaint_requests (c n w : Nat) (hc : c < U64MOD)
    (hn : n + 1 < U64MOD) :
    ((Renderer.onUserEvent c (UserEvent.requestRepaint w n)
        = EventResult.RepaintAt w) ↔ (c = n ∨ c = n + 1))
    ∧ (∀ c' n' : Nat, c' < U64MOD → n' < U64MOD → n' + 1 < c' →
        Renderer.onUserEvent c' (UserEvent.requestRepaint w n')
          = EventResult.Wait)
    ∧ (∀ (isWindows : Bool) (inl : Except AcquireError EventResult)
        (app : AppSchedState) (now : Instant),
        (App.dispatchEventResult isWindows inl app now
            EventResult.Wait).1.windowsNextRepaintTime
          = app.windowsNextRepaintTime) := by
  refine ⟨?_, ?_, ?_⟩
  · simp only [Renderer.onUserEvent, Nat.mod_eq_of_lt hn]
    split <;> simp_all
  · intro c' n' hc' hn' hbehind
    rcases Nat.lt_or_ge (n' + 1) U64MOD with hlt | hge
    · simp only [Renderer.onUserEvent, Nat.mod_eq_of_lt hlt]
      rw [if_neg (by omega)]
    · exact ((by omega : False)).elim
  · intro isWindows inl app now
    simp [App.dispatchEventResult]

/-- C4 witness: with the current counter equal to the snapshot (both 3),
the request for time 100 is honored; a counter of 9 against snapshot 3 is
stale and yields Wait. -/
theorem C4_stale_repaint_requests_witness :
    ((Renderer.onUserEvent 3 (UserEvent.requestRepaint 100 3)
        = EventResult.RepaintAt 100) ↔ ((3 : Nat) = 3 ∨ (3 : Nat) = 3 + 1))
    ∧ Renderer.onUserEvent 9 (UserEvent.requestRepaint 100 3)
        = EventResult.Wait :=
  ⟨(C4_stale_repaint_requests 3 3 100 (by decide) (by decide)).1,
    (C4_stale_repaint_requests 3 3 100 (by decide) (by decide)).2.1 9 3
      (by decide) (by decide) (by decide)⟩

/-- C2: applying a RepaintAt(t) result when a time `s` is already
scheduled (and the schedule is not consumed by the trailing due-check)
yields min(s, t); consequently RepaintAt(t1) and RepaintAt(t2) with
t1 < t2, applied in either order starting from an empty schedule, leave
the earlier time t1 scheduled. -/
theorem C2_repaintAt_earliest_wins (isWindows : Bool)
    (inl : Except AcquireError EventResult) (st st0 : AppSchedState)
    (s t t1 t2 now now1 now2 tick tick1 tick2 : Instant)
    (hs : st.windowsNextRepaintTime = some s)
    (htick : tick < min s t)
    (h0 : st0.windowsNextRepaintTime = none)
    (h12 : t1 < t2) (htk1 : tick1 < t1) (htk2 : tick2 < t1) :
    ((App.handleEventResult isWindows inl st now tick
        (Except.ok (EventResult.RepaintAt t))).1.windowsNextRepaintTime
      = some (min s t))
    ∧ ((App.handleEventResult isWindows inl
          (App.handleEventResult isWindows inl st0 now1 tick1
            (Except.ok (EventResult.RepaintAt t1))).1 now2 tick2
          (Except.ok (EventResult.RepaintAt t2))).1.windowsNextRepaintTime
        = some t1)
    ∧ ((App.handleEventResult isWindows inl
          (App.handleEventResult isWindows inl st0 now1 tick1
            (Except.ok (EventResult.RepaintAt t2))).1 now2 tick2
          (Except.ok (EventResult.RepaintAt t1))).1.windowsNextRepaintTime
        = some t1) := by
  have hmin : min t1 t2 = t1 := Nat.min_eq_left (Nat.le_of_lt h12)
  have hmin2 : min t2 t1 = t1 := Nat.min_eq_right (Nat.le_of_lt h12)
  refine ⟨?_, ?_, ?_⟩
  · have := handleEventResult_repaintAt_time isWindows inl st now tick t
      (by rw [hs]; exact htick)
    rwa [hs] at this
  · have h1 := handleEventResult_repaintAt_time isWindows inl st0 now1 tick1 t1
      (by rw [h0]; exact htk1)
    rw [h0] at h1
    have h2 := handleEventResult_repaintAt_time isWindows inl
      (App.handleEventResult isWindows inl st0 now1 tick1
        (Except.ok (EventResult.RepaintAt t1))).1 now2 tick2 t2
      (by rw [h1]; simpa [hmin] using htk2)
    rw [h1] at h2
    simpa [hmin] using h2
  · have h1 := handleEventResult_repaintAt_time isWindows inl st0 now1 tick1 t2
      (by rw [h0]; exact Nat.lt_trans htk1 h12)
    rw [h0] at h1
    have h2 := handleEventResult_repaintAt_time isWindows inl
      (App.handleEventResult isWindows inl st0 now1 tick1
        (Except.ok (EventResult.RepaintAt t2))).1 now2 tick2 t1
      (by rw [h1]; simpa [hmin2] using htk2)
    rw [h1] at h2
    simpa [hmin2] using h2

/-- C2 witness: with 10 scheduled, RepaintAt 20 leaves min 10 20 = 10;
from an empty schedule, RepaintAt 5 then RepaintAt 7 (and the reverse
order) leave 5 scheduled. -/
theorem C2_repaintAt_earliest_wins_witness :
    ((App.handleEventResult false (Except.ok EventResult.Wait)
        (⟨some 10, true, none⟩ : AppSchedState) 0 0
        (Except.ok (EventResult.RepaintAt 20))).1.windowsNextRepaintTime
      = some (min 10 20))
    ∧ ((App.handleEventResult false (Except.ok EventResult.Wait)
          (App.handleEventResult false (Except.ok EventResult.Wait)
            (⟨none, true, none⟩ : AppSchedState) 0 0
            (Except.ok (EventResult.RepaintAt 5))).1 0 0
          (Except.ok (EventResult.RepaintAt 7))).1.windowsNextRepaintTime
        = some 5)
    ∧ ((App.handleEventResult false (Except.ok EventResult.Wait)
          (App.handleEventResult false (Except.ok EventResult.Wait)
            (⟨none, true, none⟩ : AppSchedState) 0 0
            (Except.ok (EventResult.RepaintAt 7))).1 0 0
          (Except.ok (EventResult.RepaintAt 5))).1.windowsNextRepaintTime
        = some 5) :=
  C2_repaintAt_earliest_wins false (Except.ok EventResult.Wait)
    ⟨some 10, true, none⟩ ⟨none, true, none⟩ 10 20 5 7 0 0 0 0 0 0
    rfl (by decide) rfl (by decide) (by decide) (by decide)

/-- C3: the close flag is permanent. Once it is true, dispatching any
window event returns Exit (whatever the event and whatever the external
translator's response) and leaves the flag true; the UI pass (`update`)
and the frame pipeline can only keep a true flag true, never reset it. -/
theorem C3_close_flag_permanent (st : RendererState) (event : WindowEvent)
    (response : EventResponse) (h : st.egui.close = true) :
    (Renderer.onWindowEvent st event response).2.2 = EventResult.Exit
    ∧ (Renderer.onWindowEvent st event response).1.egui.close = true
    ∧ (∀ (st' : EguiRendererState) (cr : Bool) (po : FullOutput),
        st'.close = true → (EguiRenderer.update st' cr po).1.close = true)
    ∧ (∀ (st' : EguiRendererState) (input : FrameInput),
        st'.close = true →
          (EguiRenderer.runUiAndPaint st' input).1.close = true) := by
  have hupd : ∀ (st' : EguiRendererState) (cr : Bool) (po : FullOutput),
      st'.close = true → (EguiRenderer.update st' cr po).1.close = true := by
    intro st' cr po h'
    simp only [EguiRenderer.update]
    split <;> [skip; exact h']
    split <;> [exact h'; rfl]
  refine ⟨?_, ?_, hupd, ?_⟩
  · cases event <;>
      simp [Renderer.onWindowEvent, Renderer.windowEventResult, h] <;>
      split <;> simp [Renderer.windowEventResult, h]
  · cases event <;>
      simp [Renderer.onWindowEvent, Renderer.windowEventResult, h] <;>
      split <;> simp [h]
  · intro st' input h'
    exact hupd st' input.closeRequested input.passOutput h'

/-- C3 witness: with the close flag already true, an unrelated window
event (with a repaint-requesting translator response) still yields Exit
and keeps the flag true. -/
theorem C3_close_flag_permanent_witness :
    ((⟨⟨800, 600⟩, ⟨true, false, [], FullOutput.empty⟩⟩ :
        RendererState).egui.close = true)
    ∧ (Renderer.onWindowEvent
        ⟨⟨800, 600⟩, ⟨true, false, [], FullOutput.empty⟩⟩
        (WindowEvent.other 0) ⟨false, true⟩).2.2 = EventResult.Exit
    ∧ (Renderer.onWindowEvent
        ⟨⟨800, 600⟩, ⟨true, false, [], FullOutput.empty⟩⟩
        (WindowEvent.other 0) ⟨false, true⟩).1.egui.close = true :=
  ⟨rfl,
    (C3_close_flag_permanent ⟨⟨800, 600⟩, ⟨true, false, [], FullOutput.empty⟩⟩
      (WindowEvent.other 0) ⟨false, true⟩ rfl).1,
    (C3_close_flag_permanent ⟨⟨800, 600⟩, ⟨true, false, [], FullOutput.empty⟩⟩
      (WindowEvent.other 0) ⟨false, true⟩ rfl).2.1⟩

/-- C5: from a state with no scheduled repaint, dispatching RepaintNext
schedules the current instant; a later due-check (tick at or past the
scheduled time, window present) clears the schedule and issues exactly one
redraw request, while an early tick leaves the schedule intact and sets
the loop policy to wake exactly at the deadline. -/
theorem C5_repaintNext_then_tick (isWindows : Bool)
    (inl : Except AcquireError EventResult) (st : AppSchedState)
    (now : Instant) (h0 : st.windowsNextRepaintTime = none) :
    ((App.dispatchEventResult isWindows inl st now
        EventResult.RepaintNext).1.windowsNextRepaintTime = some now)
    ∧ (∀ (st' : AppSchedState) (t tick : Instant),
        st'.windowsNextRepaintTime = some t → st'.hasWindow = true →
        t ≤ tick →
          App.checkRedrawRequests st' tick
            = ({ st' with windowsNextRepaintTime := none },
                [ShellAction.requestRedraw]))
    ∧ (∀ (st' : AppSchedState) (t tick : Instant),
        st'.windowsNextRepaintTime = some t → tick < t →
          App.checkRedrawRequests st' tick
            = (st', [ShellAction.setControlFlow
                (ControlFlow.waitUntil t)])) := by
  refine ⟨by simp [App.dispatchEventResult], ?_, ?_⟩
  · intro st' t tick ht hw hdue
    simp [App.checkRedrawRequests, ht, hw, hdue]
  · intro st' t tick ht hearly
    simp [App.checkRedrawRequests, ht, Nat.not_le.mpr hearly]

/-- C5 witness: with nothing scheduled, RepaintNext at instant 4 schedules
instant 4; a tick at instant 9 clears the schedule and requests exactly
one redraw; a tick at instant 2 keeps the schedule and waits until 4. -/
theorem C5_repaintNext_then_tick_witness :
    ((App.dispatchEventResult false (Except.ok EventResult.Wait)
        (⟨none, true, none⟩ : AppSchedState) 4
        EventResult.RepaintNext).1.windowsNextRepaintTime = some 4)
    ∧ App.checkRedrawRequests (⟨some 4, true, none⟩ : AppSchedState) 9
        = (⟨none, true, none⟩, [ShellAction.requestRedraw])
    ∧ App.checkRedrawRequests (⟨some 4, true, none⟩ : AppSchedState) 2
        = (⟨some 4, true, none⟩,
            [ShellAction.setControlFlow (ControlFlow.waitUntil 4)]) :=
  ⟨(C5_repaintNext_then_tick false (Except.ok EventResult.Wait)
      ⟨none, true, none⟩ 4 rfl).1,
    (C5_repaintNext_then_tick false (Except.ok EventResult.Wait)
      ⟨none, true, none⟩ 4 rfl).2.1 ⟨some 4, true, none⟩ 4 9 rfl rfl
      (by decide),
    (C5_repaintNext_then_tick false (Except.ok EventResult.Wait)
      ⟨none, true, none⟩ 4 rfl).2.2 ⟨some 4, true, none⟩ 4 2 rfl
      (by decide)⟩

/-- C7: when a UI pass runs with input signaling a close request and the
close flag is still false, the flag stays false exactly when the root
viewport's commands contain CancelClose (and the frame then returns Wait,
whose handling never calls event-loop exit); if CancelClose is absent the
flag is set to true. -/
theorem C7_cancel_close (st : EguiRendererState) (po : FullOutput)
    (minimized : Bool) (isWindows : Bool)
    (inl : Except AcquireError EventResult) (app : AppSchedState)
    (now tickNow : Instant) (h : st.close = false) :
    (ViewportCommand.cancelClose ∈ po.rootCommands →
      (EguiRenderer.update st true po).1.close = false
      ∧ (EguiRenderer.runUiAndPaint st ⟨true, po, minimized⟩).2.2.2
          = EventResult.Wait)
    ∧ (ViewportCommand.cancelClose ∉ po.rootCommands →
        (EguiRenderer.update st true po).1.close = true)
    ∧ ShellAction.exitLoop
        ∉ (App.handleEventResult isWindows inl app now tickNow
            (Except.ok EventResult.Wait)).2 := by
  refine ⟨?_, ?_, ?_⟩
  · intro hcancel
    constructor
    · simp [EguiRenderer.update, hcancel, h]
    · have key : (EguiRenderer.runUiAndPaint st ⟨true, po, minimized⟩).2.2.2
          = if (EguiRenderer.update st true po).1.close then EventResult.Exit
            else EventResult.Wait := rfl
      rw [key]
      simp [EguiRenderer.update, hcancel, h]
  · intro hcancel
    simp [EguiRenderer.update, hcancel]
  · cases hv : app.windowsNextRepaintTime with
    | none =>
        simp [App.handleEventResult, App.dispatchEventResult,
          App.checkRedrawRequests, hv]
    | some t =>
        cases hw : app.hasWindow <;> by_cases hdue : t ≤ tickNow <;>
          simp [App.handleEventResult, App.dispatchEventResult,
            App.checkRedrawRequests, hv, hw, hdue]

/-- C7 witness: from a fresh (close = false) state, a close request whose
pass output contains CancelClose leaves the flag false and the frame
returns Wait; without CancelClose the flag becomes true. -/
theorem C7_cancel_close_witness :
    ((EguiRenderer.update EguiRendererState.init true
        ⟨[ViewportCommand.cancelClose], ⟨[], []⟩⟩).1.close = false
      ∧ (EguiRenderer.runUiAndPaint EguiRendererState.init
          ⟨true, ⟨[ViewportCommand.cancelClose], ⟨[], []⟩⟩, false⟩).2.2.2
          = EventResult.Wait)
    ∧ (EguiRenderer.update EguiRendererState.init true
        ⟨[], ⟨[], []⟩⟩).1.close = true :=
  ⟨(C7_cancel_close EguiRendererState.init
      ⟨[ViewportCommand.cancelClose], ⟨[], []⟩⟩ false false
      (Except.ok EventResult.Wait) ⟨none, true, none⟩ 0 0 rfl).1 (by decide),
    (C7_cancel_close EguiRendererState.init ⟨[], ⟨[], []⟩⟩ false false
      (Except.ok EventResult.Wait) ⟨none, true, none⟩ 0 0 rfl).2.1
      (by decide)⟩

/-- C6: the first-frame flag is true in the initial renderer state, and in
any sequence of frame-pipeline invocations starting from a state with the
flag set, `set_visible` is called during the first invocation and never
during any later one. -/
theorem C6_window_visible_once (st : EguiRendererState)
    (input0 : FrameInput) (inputs : List FrameInput)
    (h : st.isFirstFrame = true) :
    EguiRendererState.init.isFirstFrame = true
    ∧ EguiRenderer.setVisibleTrace st (input0 :: inputs)
        = true :: List.replicate inputs.length false := by
  refine ⟨rfl, ?_⟩
  rw [EguiRenderer.setVisibleTrace]
  refine congrArg₂ List.cons ?_
    (setVisibleTrace_not_first inputs _ (runUiAndPaint_isFirstFrame st input0))
  simp only [EguiRenderer.runUiAndPaint, EguiRenderer.update]
  simp only [h]
  cases input0.minimized <;> decide

/-- C6 witness: starting from the initial state, a three-frame run makes
the window visible on the first frame only. -/
theorem C6_window_visible_once_witness :
    EguiRendererState.init.isFirstFrame = true
    ∧ EguiRenderer.setVisibleTrace EguiRendererState.init
        [⟨false, FullOutput.empty, false⟩, ⟨false, FullOutput.empty, true⟩,
          ⟨false, FullOutput.empty, false⟩]
        = [true, false, false] :=
  C6_window_visible_once EguiRendererState.init
    ⟨false, FullOutput.empty, false⟩
    [⟨false, FullOutput.empty, true⟩, ⟨false, FullOutput.empty, false⟩] rfl

/-- C1 counterexample: the claim says a zero-width resize schedules no
repaint, but when the external input translator's response reports
`repaint: true` (as `egui_winit` does for every `Resized` event), the
handler returns RepaintNext, and dispatching RepaintNext at instant 5 sets
the next-repaint time to instant 5 — a repaint is scheduled. -/
theorem C1_zero_resize_counterexample :
    (Renderer.onWindowEvent
        (⟨⟨800, 600⟩, EguiRendererState.init⟩ : RendererState)
        (WindowEvent.resized 0 600) ⟨false, true⟩).2.2
      = EventResult.RepaintNext
    ∧ (App.dispatchEventResult false (Except.ok EventResult.Wait)
        (⟨none, true, none⟩ : AppSchedState) 5
        EventResult.RepaintNext).1.windowsNextRepaintTime
      ≠ (⟨none, true, none⟩ : AppSchedState).windowsNextRepaintTime := by
  decide

/-- C1 (amended): a resize event with zero width or zero height leaves the
renderer state (in particular the surface configuration) unchanged and
performs no surface reconfiguration, and its result is never RepaintNow;
but the result is RepaintNext — which schedules a repaint — whenever the
external translator's event response requests a repaint (Exit when already
closing, Wait otherwise). -/
theorem C1_zero_resize_amended (st : RendererState)
    (response : EventResponse) (w h : Nat) (hzero : w = 0 ∨ h = 0) :
    (Renderer.onWindowEvent st (WindowEvent.resized w h) response).1 = st
    ∧ (Renderer.onWindowEvent st (WindowEvent.resized w h) response).2.1 = []
    ∧ (Renderer.onWindowEvent st (WindowEvent.resized w h) response).2.2
        = (if st.egui.close then EventResult.Exit
            else if response.repaint then EventResult.RepaintNext
            else EventResult.Wait) := by
  have hnz : ¬ (0 < w ∧ 0 < h) := by omega
  simp [Renderer.onWindowEvent, Renderer.windowEventResult, hnz]

/-- C1 witness: a 0 × 600 resize against a fresh 800 × 600 configuration
leaves the state unchanged, configures nothing, and yields Wait when the
translator's response does not request a repaint. -/
theorem C1_zero_resize_amended_witness :
    ((0 : Nat) = 0 ∨ (600 : Nat) = 0)
    ∧ (Renderer.onWindowEvent
        (⟨⟨800, 600⟩, EguiRendererState.init⟩ : RendererState)
        (WindowEvent.resized 0 600) ⟨false, false⟩).1
      = (⟨⟨800, 600⟩, EguiRendererState.init⟩ : RendererState)
    ∧ (Renderer.onWindowEvent
        (⟨⟨800, 600⟩, EguiRendererState.init⟩ : RendererState)
        (WindowEvent.resized 0 600) ⟨false, false⟩).2.1 = [] :=
  ⟨Or.inl rfl,
    (C1_zero_resize_amended ⟨⟨800, 600⟩, EguiRendererState.init⟩
      ⟨false, false⟩ 0 600 (Or.inl rfl)).1,
    (C1_zero_resize_amended ⟨⟨800, 600⟩, EguiRendererState.init⟩
      ⟨false, false⟩ 0 600 (Or.inl rfl)).2.1⟩

/-- C8: in the GPU operation trace of one paint step, every texture update
for a newly set texture precedes the vertex/index buffer update; exactly
one render pass is recorded and its color attachment uses the
content-preserving Load operation; and every free of a texture marked for
deletion occurs strictly after the render pass is recorded. -/
theorem C8_paint_gpu_ordering (d : TexturesDelta) :
    (∀ (i j : Nat) (hi : i < (paintAndUpdateTextures d).length)
        (hj : j < (paintAndUpdateTextures d).length),
        (paintAndUpdateTextures d)[i].isUpdateTexture = true →
        (paintAndUpdateTextures d)[j] = GpuOp.updateBuffers →
        i < j)
    ∧ ((paintAndUpdateTextures d).countP GpuOp.isBeginRenderPass = 1
        ∧ GpuOp.beginRenderPass LoadOp.load ∈ paintAndUpdateTextures d)
    ∧ (∀ (i j : Nat) (hi : i < (paintAndUpdateTextures d).length)
        (hj : j < (paintAndUpdateTextures d).length) (l : LoadOp),
        (paintAndUpdateTextures d)[i] = GpuOp.beginRenderPass l →
        (paintAndUpdateTextures d)[j].isFreeTexture = true →
        i < j) := by
  refine ⟨?_, ⟨?_, ?_⟩, ?_⟩
  · intro i j hi hj hx hy
    have si := paint_get_shape d i _ (List.getElem?_eq_getElem hi)
    have sj := paint_get_shape d j _ (List.getElem?_eq_getElem hj)
    rcases si with ⟨hi1, a, hi2⟩ | ⟨hi1, hi2⟩ | ⟨hi1, hi2⟩ | ⟨hi1, hi2⟩
        | ⟨hi1, a, hi2⟩ <;>
      rcases sj with ⟨hj1, b, hj2⟩ | ⟨hj1, hj2⟩ | ⟨hj1, hj2⟩ | ⟨hj1, hj2⟩
        | ⟨hj1, b, hj2⟩ <;>
      simp_all [GpuOp.isUpdateTexture]
  · have hset : (d.set.map GpuOp.updateTexture).countP
        GpuOp.isBeginRenderPass = 0 := by
      rw [List.countP_eq_zero]
      intro a ha
      obtain ⟨b, _, hb⟩ := List.mem_map.mp ha
      rw [← hb]
      simp [GpuOp.isBeginRenderPass]
    have hfree : (d.free.map GpuOp.freeTexture).countP
        GpuOp.isBeginRenderPass = 0 := by
      rw [List.countP_eq_zero]
      intro a ha
      obtain ⟨b, _, hb⟩ := List.mem_map.mp ha
      rw [← hb]
      simp [GpuOp.isBeginRenderPass]
    simp [paintAndUpdateTextures, List.countP_append, hset, hfree,
      List.countP_cons, GpuOp.isBeginRenderPass]
  · simp [paintAndUpdateTextures]
  · intro i j hi hj l hx hy
    have si := paint_get_shape d i _ (List.getElem?_eq_getElem hi)
    have sj := paint_get_shape d j _ (List.getElem?_eq_getElem hj)
    rcases si with ⟨hi1, a, hi2⟩ | ⟨hi1, hi2⟩ | ⟨hi1, hi2⟩ | ⟨hi1, hi2⟩
        | ⟨hi1, a, hi2⟩ <;>
      rcases sj with ⟨hj1, b, hj2⟩ | ⟨hj1, hj2⟩ | ⟨hj1, hj2⟩ | ⟨hj1, hj2⟩
        | ⟨hj1, b, hj2⟩ <;>
      simp_all [GpuOp.isFreeTexture] <;> omega

/-- C8 witness: for one set texture (id 7) and one freed texture (id 9),
the trace is [updateTexture 7, updateBuffers, beginRenderPass load,
render, freeTexture 9]: the texture update (index 0) precedes the buffer
update (index 1), exactly one loading render pass is recorded, and the
free (index 4) follows the render pass (index 2). -/
theorem C8_paint_gpu_ordering_witness :
    ((paintAndUpdateTextures ⟨[7], [9]⟩).countP GpuOp.isBeginRenderPass = 1
      ∧ GpuOp.beginRenderPass LoadOp.load ∈ paintAndUpdateTextures ⟨[7], [9]⟩)
    ∧ (0 : Nat) < 1 ∧ (2 : Nat) < 4 :=
  ⟨(C8_paint_gpu_ordering ⟨[7], [9]⟩).2.1,
    (C8_paint_gpu_ordering ⟨[7], [9]⟩).1 0 1 (by decide) (by decide)
      (by decide) (by decide),
    (C8_paint_gpu_ordering ⟨[7], [9]⟩).2.2 2 4 (by decide) (by decide)
      LoadOp.load (by decide) (by decide)⟩

end EguiWgpu
